import Mathlib

/-!
Verification of the in-memory user store and HTTP handler layer of the
micro-user-service (src/main.go). The Go `map[string]User` is modelled as an
association list of records keyed by their `ID` field; Go's map guarantees
key uniqueness, which here is the `keys.Nodup` invariant shown to be
preserved by every mutating operation.
-/

/-- Mirror of the Go struct `User` (fields `ID`, `Name`, `Email`). -/
structure User where
  ID : String
  Name : String
  Email : String
deriving DecidableEq, Repr

/-- The store contents: the Go `map[string]User` as a list of records keyed
by `ID`. -/
abbrev UserStore := List User

/-- The identifiers present in the store (the map's key set). -/
def UserStore.keys (s : UserStore) : List String :=
  s.map User.ID

/-- Key membership test, Go `_, exists := s.users[id]`. -/
def UserStore.containsId (s : UserStore) (id : String) : Bool :=
  s.any (fun v => v.ID == id)

/-- Map lookup, Go `user, exists := s.users[id]` (the value part). -/
def UserStore.lookup (s : UserStore) (id : String) : Option User :=
  s.find? (fun v => v.ID == id)

/-- Go `(*UserStore).Create`: `s.users[user.ID] = user` — overwrite the
binding when the key is present, otherwise add a new binding. -/
def UserStore.Create (s : UserStore) (u : User) : UserStore :=
  if UserStore.containsId s u.ID then
    s.map (fun v => if v.ID == u.ID then u else v)
  else
    s ++ [u]

/-- Go `(*UserStore).Get`: the record plus an existence flag; a Go map read
on a missing key yields the zero value. -/
def UserStore.Get (s : UserStore) (id : String) : User × Bool :=
  match UserStore.lookup s id with
  | some u => (u, true)
  | none => (⟨"", "", ""⟩, false)

/-- Go `(*UserStore).GetAll`: a snapshot copy of all records. -/
def UserStore.GetAll (s : UserStore) : List User :=
  s

/-- Go `(*UserStore).Update`: replaces the binding only when the key already
exists and reports whether it did. -/
def UserStore.Update (s : UserStore) (u : User) : UserStore × Bool :=
  if UserStore.containsId s u.ID then
    (s.map (fun v => if v.ID == u.ID then u else v), true)
  else
    (s, false)

/-- Go `(*UserStore).Delete`: removes the binding only when the key exists
and reports whether it did. -/
def UserStore.Delete (s : UserStore) (id : String) : UserStore × Bool :=
  if UserStore.containsId s id then
    (s.filter (fun v => v.ID != id), true)
  else
    (s, false)

/-- Response bodies the handlers can produce. -/
inductive Body where
  | empty : Body
  | user : User → Body
  | users : List User → Body
  | errMsg : String → Body
deriving DecidableEq, Repr

/-- Go `createUserHandler`: decode the body, reject when `ID`, `Name` or
`Email` is empty, otherwise insert and echo the record with status 201.
A `none` body stands for a JSON decode failure. -/
def createUserHandler (s : UserStore) (body : Option User) :
    UserStore × Nat × Body :=
  match body with
  | none => (s, 400, Body.errMsg "decode error")
  | some user =>
    if user.ID == "" || user.Name == "" || user.Email == "" then
      (s, 400, Body.errMsg "ID, Name, and Email are required")
    else
      (UserStore.Create s user, 201, Body.user user)

/-- Go `getAllUsersHandler`: always responds 200 with the snapshot list. -/
def getAllUsersHandler (s : UserStore) : UserStore × Nat × Body :=
  (s, 200, Body.users (UserStore.GetAll s))

/-- Go `updateUserHandler`: decode the body, force `user.ID` to the path
parameter, call `Update`, answer 404 when it reports absence, otherwise echo
the forced record with status 200. -/
def updateUserHandler (s : UserStore) (id : String) (body : Option User) :
    UserStore × Nat × Body :=
  match body with
  | none => (s, 400, Body.errMsg "decode error")
  | some u0 =>
    let user : User := { u0 with ID := id }
    match UserStore.Update s user with
    | (s2, true) => (s2, 200, Body.user user)
    | (_, false) => (s, 404, Body.errMsg "User not found")

/-- An HTTP request as the middleware observes it: a method, a path and an
optional decoded record body. -/
structure Request where
  method : String
  path : String
  body : Option User
deriving DecidableEq, Repr

/-- A response as produced behind the middleware: headers set on the writer,
a status code and a body. -/
structure HttpResponse where
  headers : List (String × String)
  status : Nat
  body : Body
deriving DecidableEq, Repr

/-- The three headers `corsMiddleware` sets on every response writer. -/
def corsHeaders : List (String × String) :=
  [("Access-Control-Allow-Origin", "*"),
   ("Access-Control-Allow-Methods", "GET, POST, PUT, DELETE, OPTIONS"),
   ("Access-Control-Allow-Headers", "Content-Type, Authorization")]

/-- Go `corsMiddleware`: set the permissive headers, answer OPTIONS requests
with a bare 200 without calling `next`, and otherwise delegate to `next`
(which may read or mutate the store). -/
def corsMiddleware (next : Request → UserStore → UserStore × Nat × Body)
    (r : Request) (s : UserStore) : UserStore × HttpResponse :=
  if r.method == "OPTIONS" then
    (s, { headers := corsHeaders, status := 200, body := Body.empty })
  else
    match next r s with
    | (s2, st, b) => (s2, { headers := corsHeaders, status := st, body := b })

/-- Running `Create` on each record of a list in turn, starting from `s`. -/
def createAll (s : UserStore) (us : List User) : UserStore :=
  us.foldl UserStore.Create s

lemma containsId_iff_mem_keys (s : UserStore) (id : String) :
    UserStore.containsId s id = true ↔ id ∈ UserStore.keys s := by
  rw [UserStore.containsId, UserStore.keys, List.any_eq_true]
  constructor
  · rintro ⟨v, hv, hb⟩
    exact List.mem_map.mpr ⟨v, hv, by simpa using hb⟩
  · intro hm
    obtain ⟨v, hv, hb⟩ := List.mem_map.mp hm
    exact ⟨v, hv, by simp [hb]⟩

lemma not_mem_of_containsId_false (s : UserStore) (id : String)
    (h : UserStore.containsId s id = false) : ∀ v ∈ s, v.ID ≠ id := by
  intro v hv hvid
  have ht : UserStore.containsId s id = true := by
    rw [UserStore.containsId, List.any_eq_true]
    exact ⟨v, hv, by simp [hvid]⟩
  simp [ht] at h

lemma find?_map_replace_self (u : User) (s : List User)
    (hs : UserStore.containsId s u.ID = true) :
    (s.map (fun v => if v.ID == u.ID then u else v)).find?
      (fun v => v.ID == u.ID) = some u := by
  induction s with
  | nil => simp [UserStore.containsId] at hs
  | cons v t ih =>
    by_cases hv : v.ID = u.ID
    · simp [hv]
    · have ht : UserStore.containsId t u.ID = true := by
        simpa [UserStore.containsId, hv] using hs
      simpa [hv] using ih ht

lemma find?_map_replace_ne (u : User) (y : String) (hy : y ≠ u.ID)
    (s : List User) :
    (s.map (fun v => if v.ID == u.ID then u else v)).find?
      (fun v => v.ID == y) = s.find? (fun v => v.ID == y) := by
  induction s with
  | nil => simp
  | cons v t ih =>
    rw [List.map_cons]
    by_cases hv : v.ID = u.ID
    · have hfv : (if v.ID == u.ID then u else v) = u := by simp [hv]
      rw [hfv, List.find?_cons_of_neg _ (by simpa using Ne.symm hy),
        List.find?_cons_of_neg _ (by simpa [hv] using Ne.symm hy)]
      exact ih
    · have hfv : (if v.ID == u.ID then u else v) = v := by simp [hv]
      rw [hfv]
      by_cases hvy : v.ID = y
      · rw [List.find?_cons_of_pos _ (by simpa using hvy),
          List.find?_cons_of_pos _ (by simpa using hvy)]
      · rw [List.find?_cons_of_neg _ (by simpa using hvy),
          List.find?_cons_of_neg _ (by simpa using hvy)]
        exact ih

lemma find?_append_single_ne (u : User) (y : String) (hy : y ≠ u.ID)
    (s : List User) :
    (s ++ [u]).find? (fun v => v.ID == y) = s.find? (fun v => v.ID == y) := by
  induction s with
  | nil => simp [Ne.symm hy]
  | cons v t ih =>
    by_cases hv : v.ID = y
    · simp [hv]
    · simp [hv, ih]

lemma find?_filter_ne (id y : String) (hy : y ≠ id) (s : List User) :
    (s.filter (fun v => v.ID != id)).find? (fun v => v.ID == y)
      = s.find? (fun v => v.ID == y) := by
  induction s with
  | nil => simp
  | cons v t ih =>
    by_cases hv : v.ID = id
    · rw [List.filter_cons_of_neg (by simp [hv]),
        List.find?_cons_of_neg _ (by simpa [hv] using Ne.symm hy)]
      exact ih
    · rw [List.filter_cons_of_pos (by simp [hv])]
      by_cases hvy : v.ID = y
      · rw [List.find?_cons_of_pos _ (by simpa using hvy),
          List.find?_cons_of_pos _ (by simpa using hvy)]
      · rw [List.find?_cons_of_neg _ (by simpa using hvy),
          List.find?_cons_of_neg _ (by simpa using hvy)]
        exact ih

lemma lookup_eq_none_of_containsId_false (s : UserStore) (id : String)
    (h : UserStore.containsId s id = false) :
    UserStore.lookup s id = none := by
  rw [UserStore.lookup, List.find?_eq_none]
  intro v hv
  simpa using not_mem_of_containsId_false s id h v hv

lemma lookup_create_self (s : UserStore) (u : User) :
    UserStore.lookup (UserStore.Create s u) u.ID = some u := by
  unfold UserStore.Create UserStore.lookup
  by_cases h : UserStore.containsId s u.ID = true
  · rw [if_pos h]
    exact find?_map_replace_self u s h
  · rw [if_neg h]
    have hn : UserStore.containsId s u.ID = false := by
      simpa using h
    rw [List.find?_append]
    have h1 : s.find? (fun v => v.ID == u.ID) = none :=
      lookup_eq_none_of_containsId_false s u.ID hn
    simp [h1]

lemma containsId_filter_self (s : UserStore) (id : String) :
    UserStore.containsId (s.filter (fun v => v.ID != id)) id = false := by
  simp [UserStore.containsId, List.any_eq_false, List.mem_filter]

lemma keys_map_replace (s : UserStore) (u : User) :
    UserStore.keys (s.map (fun v => if v.ID == u.ID then u else v))
      = UserStore.keys s := by
  unfold UserStore.keys
  rw [List.map_map]
  apply List.map_congr_left
  intro v _
  by_cases hv : v.ID = u.ID <;> simp [hv]

lemma keys_update_fst (s : UserStore) (u : User) :
    UserStore.keys (UserStore.Update s u).1 = UserStore.keys s := by
  unfold UserStore.Update
  by_cases hc : UserStore.containsId s u.ID = true
  · rw [if_pos hc]
    exact keys_map_replace s u
  · rw [if_neg hc]

lemma keys_create_nodup (s : UserStore) (u : User)
    (h : (UserStore.keys s).Nodup) :
    (UserStore.keys (UserStore.Create s u)).Nodup := by
  unfold UserStore.Create
  by_cases hc : UserStore.containsId s u.ID = true
  · rw [if_pos hc, keys_map_replace]
    exact h
  · rw [if_neg hc]
    have hmem : u.ID ∉ UserStore.keys s := by
      intro hm
      exact hc ((containsId_iff_mem_keys s u.ID).mpr hm)
    unfold UserStore.keys at *
    rw [List.map_append]
    simp only [List.map_cons, List.map_nil]
    rw [List.nodup_append]
    refine ⟨h, List.nodup_singleton _, ?_⟩
    intro x hx hx2
    simp at hx2
    subst hx2
    exact hmem hx

lemma keys_delete_nodup (s : UserStore) (id : String)
    (h : (UserStore.keys s).Nodup) :
    (UserStore.keys (UserStore.Delete s id).1).Nodup := by
  unfold UserStore.Delete
  by_cases hc : UserStore.containsId s id = true
  · rw [if_pos hc]
    have hsub : ((s.filter (fun v => v.ID != id)).map User.ID).Sublist
        (s.map User.ID) :=
      (List.filter_sublist s).map User.ID
    exact List.Nodup.sublist hsub h
  · rw [if_neg hc]
    exact h

lemma update_not_present (s : UserStore) (u : User)
    (h : UserStore.containsId s u.ID = false) :
    UserStore.Update s u = (s, false) := by
  unfold UserStore.Update
  rw [if_neg (by simp [h])]

lemma delete_not_present (s : UserStore) (id : String)
    (h : UserStore.containsId s id = false) :
    UserStore.Delete s id = (s, false) := by
  unfold UserStore.Delete
  rw [if_neg (by simp [h])]

lemma get_update_self (s : UserStore) (u : User)
    (h : UserStore.containsId s u.ID = true) :
    UserStore.Get (UserStore.Update s u).1 u.ID = (u, true) := by
  have hl : UserStore.lookup (UserStore.Update s u).1 u.ID = some u := by
    unfold UserStore.Update
    rw [if_pos h]
    exact find?_map_replace_self u s h
  unfold UserStore.Get
  rw [hl]

lemma createAll_eq_append (us : List User) :
    ∀ s : UserStore, (∀ u ∈ us, UserStore.containsId s u.ID = false) →
      (us.map User.ID).Nodup → createAll s us = s ++ us := by
  induction us with
  | nil =>
    intro s _ _
    simp [createAll]
  | cons u t ih =>
    intro s hdisj hnd
    have h1 : UserStore.containsId s u.ID = false := hdisj u (List.mem_cons_self u t)
    have hc : UserStore.Create s u = s ++ [u] := by
      unfold UserStore.Create
      rw [if_neg (by simp [h1])]
    rw [List.map_cons, List.nodup_cons] at hnd
    have hdisj2 : ∀ v ∈ t, UserStore.containsId (s ++ [u]) v.ID = false := by
      intro v hv
      have h2 : UserStore.containsId s v.ID = false := hdisj v (List.mem_cons_of_mem u hv)
      have h3 : u.ID ≠ v.ID := by
        intro he
        apply hnd.1
        rw [he]
        exact List.mem_map.mpr ⟨v, hv, rfl⟩
      unfold UserStore.containsId at h2 ⊢
      rw [List.any_append, h2]
      simp [h3]
    have hstep : createAll s (u :: t) = createAll (UserStore.Create s u) t := by
      simp [createAll]
    rw [hstep, hc, ih (s ++ [u]) hdisj2 hnd.2]
    simp

lemma updateUserHandler_eq (s : UserStore) (id : String) (u0 : User) :
    updateUserHandler s id (some u0)
      = if UserStore.containsId s id = true
          then ((UserStore.Update s { u0 with ID := id }).1, 200,
                Body.user { u0 with ID := id })
          else (s, 404, Body.errMsg "User not found") := by
  by_cases h : UserStore.containsId s id = true
  · rw [if_pos h]
    have hb : UserStore.Update s { u0 with ID := id }
        = ((s.map fun v => if v.ID == id then { u0 with ID := id } else v), true) := by
      unfold UserStore.Update
      rw [if_pos h]
    simp only [updateUserHandler, hb]
  · rw [if_neg h]
    have hb : UserStore.Update s { u0 with ID := id } = (s, false) :=
      update_not_present s _ (by simpa using h)
    simp only [updateUserHandler, hb]

/-- Claim C1: for every user record with a non-empty identifier, `Create`
with that record followed by `Get` with the same identifier returns exactly
that record together with `found = true`. -/
theorem create_then_get_same (s : UserStore) (u : User) (_h : u.ID ≠ "") :
    UserStore.Get (UserStore.Create s u) u.ID = (u, true) := by
  unfold UserStore.Get
  rw [lookup_create_self]

/-- Witness for `create_then_get_same` at a concrete record and store. -/
theorem create_then_get_same_witness :
    (User.mk "1" "John Doe" "john@example.com").ID ≠ "" ∧
    UserStore.Get
        (UserStore.Create [] (User.mk "1" "John Doe" "john@example.com"))
        (User.mk "1" "John Doe" "john@example.com").ID
      = (User.mk "1" "John Doe" "john@example.com", true) :=
  ⟨by decide, create_then_get_same [] (User.mk "1" "John Doe" "john@example.com") (by decide)⟩

/-- Claim C2: `Create` appends a new binding when the identifier is absent
and silently overwrites in place when it is present (same lookup result,
same number of records); it is total (no error path), and key uniqueness is
preserved by `Create`, `Update` and `Delete`. -/
theorem create_upsert_and_unique_ids (s : UserStore) (u : User) (id : String) :
    (UserStore.containsId s u.ID = false → UserStore.Create s u = s ++ [u]) ∧
    (UserStore.containsId s u.ID = true →
      UserStore.lookup (UserStore.Create s u) u.ID = some u ∧
      (UserStore.Create s u).length = s.length) ∧
    ((UserStore.keys s).Nodup →
      (UserStore.keys (UserStore.Create s u)).Nodup ∧
      (UserStore.keys (UserStore.Update s u).1).Nodup ∧
      (UserStore.keys (UserStore.Delete s id).1).Nodup) := by
  refine ⟨?_, ?_, ?_⟩
  · intro h
    unfold UserStore.Create
    rw [if_neg (by simp [h])]
  · intro h
    refine ⟨lookup_create_self s u, ?_⟩
    unfold UserStore.Create
    rw [if_pos h, List.length_map]
  · intro h
    exact ⟨keys_create_nodup s u h, by rw [keys_update_fst]; exact h,
      keys_delete_nodup s id h⟩

/-- Witness for `create_upsert_and_unique_ids` at a concrete record. -/
theorem create_upsert_and_unique_ids_witness :
    UserStore.containsId [] (User.mk "1" "A" "a@x").ID = false ∧
    UserStore.Create [] (User.mk "1" "A" "a@x") = [User.mk "1" "A" "a@x"] :=
  ⟨by decide, (create_upsert_and_unique_ids [] (User.mk "1" "A" "a@x") "2").1 (by decide)⟩

/-- Claim C3: `Update` returns `true` exactly when the identifier already
exists; in that case it fully replaces the stored record (the subsequent
`Get` yields the new record, not a field merge), and when the identifier is
absent it returns `false` with the store unchanged. -/
theorem update_replace_iff_exists (s : UserStore) (u : User) :
    ((UserStore.Update s u).2 = true ↔ UserStore.containsId s u.ID = true) ∧
    (UserStore.containsId s u.ID = true →
      UserStore.Get (UserStore.Update s u).1 u.ID = (u, true)) ∧
    (UserStore.containsId s u.ID = false → UserStore.Update s u = (s, false)) := by
  refine ⟨?_, fun h => get_update_self s u h, fun h => update_not_present s u h⟩
  constructor
  · intro h2
    by_contra hc
    rw [update_not_present s u (by simpa using hc)] at h2
    simp at h2
  · intro hc
    unfold UserStore.Update
    rw [if_pos hc]

/-- Witness for `update_replace_iff_exists` at a concrete store. -/
theorem update_replace_iff_exists_witness :
    UserStore.containsId [User.mk "1" "A" "a"] (User.mk "1" "B" "b").ID = true ∧
    UserStore.Get
        (UserStore.Update [User.mk "1" "A" "a"] (User.mk "1" "B" "b")).1
        (User.mk "1" "B" "b").ID
      = (User.mk "1" "B" "b", true) :=
  ⟨by decide, (update_replace_iff_exists [User.mk "1" "A" "a"] (User.mk "1" "B" "b")).2.1 (by decide)⟩

/-- Claim C4: `Delete` returns `true` and removes the binding exactly when
the identifier is present; afterwards the identifier is absent, and a second
`Delete` of the same identifier returns `false` and leaves the state equal
to the state after the first. -/
theorem delete_iff_present_idempotent (s : UserStore) (id : String) :
    ((UserStore.Delete s id).2 = true ↔ UserStore.containsId s id = true) ∧
    (UserStore.containsId s id = false → UserStore.Delete s id = (s, false)) ∧
    UserStore.Get (UserStore.Delete s id).1 id = (⟨"", "", ""⟩, false) ∧
    UserStore.Delete (UserStore.Delete s id).1 id
      = ((UserStore.Delete s id).1, false) := by
  have hafter : UserStore.containsId (UserStore.Delete s id).1 id = false := by
    by_cases hc : UserStore.containsId s id = true
    · have h1 : (UserStore.Delete s id).1 = s.filter (fun v => v.ID != id) := by
        unfold UserStore.Delete
        rw [if_pos hc]
      rw [h1]
      exact containsId_filter_self s id
    · have h1 : (UserStore.Delete s id).1 = s := by
        unfold UserStore.Delete
        rw [if_neg hc]
      rw [h1]
      simpa using hc
  refine ⟨?_, fun h => delete_not_present s id h, ?_, delete_not_present _ id hafter⟩
  · constructor
    · intro h2
      by_contra hc
      rw [delete_not_present s id (by simpa using hc)] at h2
      simp at h2
    · intro hc
      unfold UserStore.Delete
      rw [if_pos hc]
  · have hl := lookup_eq_none_of_containsId_false _ id hafter
    unfold UserStore.Get
    rw [hl]

/-- Witness for `delete_iff_present_idempotent` at a concrete store. -/
theorem delete_iff_present_idempotent_witness :
    UserStore.containsId [] "9" = false ∧
    UserStore.Delete ([] : UserStore) "9" = ([], false) :=
  ⟨by decide, (delete_iff_present_idempotent [] "9").2.1 (by decide)⟩

/-- Claim C5: starting from the empty store, `Create` on N records with
pairwise-distinct identifiers makes `GetAll` return exactly those N records,
and `GetAll` on the empty store returns the empty sequence (the handler
answers 200 with it, never an error). -/
theorem getAll_after_distinct_creates (us : List User)
    (h : (us.map User.ID).Nodup) :
    UserStore.GetAll (createAll ([] : UserStore) us) = us ∧
    UserStore.GetAll ([] : UserStore) = [] ∧
    getAllUsersHandler [] = ([], 200, Body.users []) := by
  refine ⟨?_, rfl, rfl⟩
  have hca := createAll_eq_append us [] (fun u _ => rfl) h
  simpa [UserStore.GetAll] using hca

/-- Witness for `getAll_after_distinct_creates` at two concrete records. -/
theorem getAll_after_distinct_creates_witness :
    (([User.mk "1" "A" "a", User.mk "2" "B" "b"]).map User.ID).Nodup ∧
    UserStore.GetAll (createAll ([] : UserStore)
        [User.mk "1" "A" "a", User.mk "2" "B" "b"])
      = [User.mk "1" "A" "a", User.mk "2" "B" "b"] :=
  ⟨by decide, (getAll_after_distinct_creates [User.mk "1" "A" "a", User.mk "2" "B" "b"] (by decide)).1⟩

/-- Claim C6: the create handler rejects, with a 400 error and an untouched
store, any decoded record whose `ID`, `Name` or `Email` is the empty string;
when all three are non-empty it inserts the record and answers 201 echoing
it. -/
theorem create_handler_validates_fields (s : UserStore) (u : User) :
    (u.ID = "" ∨ u.Name = "" ∨ u.Email = "" →
      createUserHandler s (some u)
        = (s, 400, Body.errMsg "ID, Name, and Email are required")) ∧
    (u.ID ≠ "" → u.Name ≠ "" → u.Email ≠ "" →
      createUserHandler s (some u) = (UserStore.Create s u, 201, Body.user u)) := by
  constructor
  · intro h
    unfold createUserHandler
    rcases h with h | h | h <;> simp [h]
  · intro h1 h2 h3
    unfold createUserHandler
    simp [h1, h2, h3]

/-- Witness for `create_handler_validates_fields` at a record with an empty
identifier. -/
theorem create_handler_validates_fields_witness :
    createUserHandler [] (some (User.mk "" "A" "a"))
      = ([], 400, Body.errMsg "ID, Name, and Email are required") :=
  (create_handler_validates_fields [] (User.mk "" "A" "a")).1 (Or.inl rfl)

/-- Claim C7: the update handler ignores any body-supplied identifier,
forcing it to the path parameter; it answers 404 with an unchanged store
when the identifier is absent, and otherwise replaces the stored record
with the decoded one and echoes the forced record with status 200. -/
theorem update_handler_forces_path_id (s : UserStore) (id : String) (u : User) :
    (∀ x : String, updateUserHandler s id (some u)
        = updateUserHandler s id (some { u with ID := x })) ∧
    (UserStore.containsId s id = false →
      updateUserHandler s id (some u) = (s, 404, Body.errMsg "User not found")) ∧
    (UserStore.containsId s id = true →
      updateUserHandler s id (some u)
          = ((UserStore.Update s { u with ID := id }).1, 200,
              Body.user { u with ID := id }) ∧
      UserStore.Get (updateUserHandler s id (some u)).1 id
          = ({ u with ID := id }, true)) := by
  refine ⟨fun x => rfl, ?_, ?_⟩
  · intro h
    rw [updateUserHandler_eq, if_neg (by simp [h])]
  · intro h
    have he : updateUserHandler s id (some u)
        = ((UserStore.Update s { u with ID := id }).1, 200,
            Body.user { u with ID := id }) := by
      rw [updateUserHandler_eq, if_pos h]
    refine ⟨he, ?_⟩
    rw [he]
    exact get_update_self s { u with ID := id } h

/-- Witness for `update_handler_forces_path_id` on an empty store. -/
theorem update_handler_forces_path_id_witness :
    UserStore.containsId [] "7" = false ∧
    updateUserHandler [] "7" (some (User.mk "x" "A" "a"))
      = ([], 404, Body.errMsg "User not found") :=
  ⟨by decide, (update_handler_forces_path_id [] "7" (User.mk "x" "A" "a")).2.1 (by decide)⟩

/-- Counterexample to claim C8 as stated: a PUT body with empty `Name` and
`Email` on an existing identifier is not rejected — the handler answers 200
and the store is modified (the stored record's fields become empty). -/
theorem update_handler_no_field_validation_cex :
    updateUserHandler [User.mk "1" "John Doe" "john@example.com"] "1"
        (some (User.mk "" "" ""))
      = ([User.mk "1" "" ""], 200, Body.user (User.mk "1" "" "")) := by
  decide

/-- Claim C8 amended: only the create handler validates presence of the
required fields before invoking its store operation (any empty field gives
a 400 with the store untouched); the update handler performs no such
validation — a PUT whose body omits or empties `Name` or `Email` on an
existing identifier succeeds with 200 and replaces the stored record,
leaving those fields empty. -/
theorem field_validation_create_handler_only (s : UserStore) (id : String) (u : User) :
    (u.ID = "" ∨ u.Name = "" ∨ u.Email = "" →
      createUserHandler s (some u)
        = (s, 400, Body.errMsg "ID, Name, and Email are required")) ∧
    (UserStore.containsId s id = true →
      (updateUserHandler s id (some { u with Name := "", Email := "" })).2.1 = 200 ∧
      UserStore.Get
          (updateUserHandler s id (some { u with Name := "", Email := "" })).1 id
        = (User.mk id "" "", true)) := by
  constructor
  · intro h
    unfold createUserHandler
    rcases h with h | h | h <;> simp [h]
  · intro h
    have he : updateUserHandler s id (some { u with Name := "", Email := "" })
        = ((UserStore.Update s (User.mk id "" "")).1, 200,
            Body.user (User.mk id "" "")) := by
      rw [updateUserHandler_eq, if_pos h]
    refine ⟨by rw [he], ?_⟩
    rw [he]
    exact get_update_self s (User.mk id "" "") h

/-- Witness for `field_validation_create_handler_only` at a concrete store
holding one record. -/
theorem field_validation_create_handler_only_witness :
    UserStore.containsId [User.mk "1" "A" "a"] "1" = true ∧
    (updateUserHandler [User.mk "1" "A" "a"] "1"
        (some (User.mk "1" "" ""))).2.1 = 200 :=
  ⟨by decide,
    ((field_validation_create_handler_only [User.mk "1" "A" "a"] "1"
        (User.mk "1" "" "")).2 (by decide)).1⟩

/-- Claim C9: the middleware attaches the permissive cross-origin headers to
every response, and an OPTIONS request of any path short-circuits to a bare
200 with no body and an unchanged store, independently of the wrapped
handler (it is never invoked). -/
theorem cors_headers_and_preflight
    (next : Request → UserStore → UserStore × Nat × Body)
    (r : Request) (s : UserStore) :
    (corsMiddleware next r s).2.headers = corsHeaders ∧
    (r.method = "OPTIONS" →
      corsMiddleware next r s
          = (s, { headers := corsHeaders, status := 200, body := Body.empty }) ∧
      ∀ next2, corsMiddleware next r s = corsMiddleware next2 r s) := by
  constructor
  · unfold corsMiddleware
    by_cases h : r.method = "OPTIONS"
    · rw [if_pos (by simp [h])]
    · rw [if_neg (by simp [h])]
  · intro h
    constructor
    · unfold corsMiddleware
      rw [if_pos (by simp [h])]
    · intro next2
      unfold corsMiddleware
      rw [if_pos (by simp [h]), if_pos (by simp [h])]

/-- Witness for `cors_headers_and_preflight`: a concrete OPTIONS request
short-circuits regardless of the wrapped handler. -/
theorem cors_headers_and_preflight_witness :
    corsMiddleware (fun _ s => (s, 200, Body.empty))
        (Request.mk "OPTIONS" "/users" none) []
      = ([], HttpResponse.mk corsHeaders 200 Body.empty) :=
  ((cors_headers_and_preflight (fun _ s => (s, 200, Body.empty))
      (Request.mk "OPTIONS" "/users" none) []).2 rfl).1

/-- Claim C10: every mutating store operation touches at most the one keyed
entry — for any identifier different from the one written or deleted, `Get`
returns the same result before and after. -/
theorem mutations_touch_one_key (s : UserStore) (u : User) (id y : String) :
    (y ≠ u.ID →
      UserStore.Get (UserStore.Create s u) y = UserStore.Get s y ∧
      UserStore.Get (UserStore.Update s u).1 y = UserStore.Get s y) ∧
    (y ≠ id → UserStore.Get (UserStore.Delete s id).1 y = UserStore.Get s y) := by
  constructor
  · intro hy
    constructor
    · have hl : UserStore.lookup (UserStore.Create s u) y = UserStore.lookup s y := by
        unfold UserStore.Create UserStore.lookup
        by_cases hc : UserStore.containsId s u.ID = true
        · rw [if_pos hc]
          exact find?_map_replace_ne u y hy s
        · rw [if_neg hc]
          exact find?_append_single_ne u y hy s
      unfold UserStore.Get
      rw [hl]
    · have hl : UserStore.lookup (UserStore.Update s u).1 y = UserStore.lookup s y := by
        unfold UserStore.Update UserStore.lookup
        by_cases hc : UserStore.containsId s u.ID = true
        · rw [if_pos hc]
          exact find?_map_replace_ne u y hy s
        · rw [if_neg hc]
      unfold UserStore.Get
      rw [hl]
  · intro hy
    have hl : UserStore.lookup (UserStore.Delete s id).1 y = UserStore.lookup s y := by
      unfold UserStore.Delete UserStore.lookup
      by_cases hc : UserStore.containsId s id = true
      · rw [if_pos hc]
        exact find?_filter_ne id y hy s
      · rw [if_neg hc]
    unfold UserStore.Get
    rw [hl]

/-- Witness for `mutations_touch_one_key`: creating one record leaves the
entry for a different identifier unchanged. -/
theorem mutations_touch_one_key_witness :
    "2" ≠ (User.mk "1" "A" "a").ID ∧
    UserStore.Get (UserStore.Create [User.mk "2" "B" "b"] (User.mk "1" "A" "a")) "2"
      = UserStore.Get [User.mk "2" "B" "b"] "2" :=
  ⟨by decide,
    ((mutations_touch_one_key [User.mk "2" "B" "b"] (User.mk "1" "A" "a") "9" "2").1 (by decide)).1⟩
